import Mathlib

/-!
# Verification of the BNUXC Flip-Grid program

A shallow embedding, in Lean 4, of the logic of the Flip-Grid puzzle
application: the grid engine (`utils/gameLogic.ts`), the level
import/export pipeline (`components/AdminPanel.tsx`), and the
competition run state machine of the main application component
(`App.tsx`, together with the shared declarations of `types.ts`).

JavaScript arrays are modelled as Lean lists, JS numbers appearing in
the game logic (step counts, millisecond timestamps, indices) as `Nat`,
and JSON values as the inductive `JValue`.  Stateful React code is
modelled by explicit state passing: every event handler becomes a
function from the application state (and the event's inputs, including
the current wall-clock time where `Date.now()` is read) to the new
application state.
-/

/-! ## Grid engine (`src/utils/gameLogic.ts` and `src/types.ts`) -/

/-- `GRID_SIZE` from `types.ts`. -/
def GRID_SIZE : Nat := 3

/-- `TOTAL_CELLS` from `types.ts`. -/
def TOTAL_CELLS : Nat := GRID_SIZE * GRID_SIZE

/-- `createEmptyGrid` from `gameLogic.ts`: `Array(TOTAL_CELLS).fill(false)`. -/
def createEmptyGrid : List Bool := List.replicate TOTAL_CELLS false

/-- The JS statement `newGrid[i] = !newGrid[i]` for an in-range index `i`. -/
def flipAt (g : List Bool) (i : Nat) : List Bool := g.set i (!(g.getD i false))

/-- `toggleGridCell` from `gameLogic.ts`: copy the grid, flip the clicked
cell, then flip each of the four orthogonal neighbours guarded by the
same bounds checks as the source (`row > 0`, `row < GRID_SIZE - 1`,
`col > 0`, `col < GRID_SIZE - 1`). -/
def toggleGridCell (grid : List Bool) (index : Nat) : List Bool :=
  let row := index / GRID_SIZE
  let col := index % GRID_SIZE
  let g1 := flipAt grid index
  let g2 := if row > 0 then flipAt g1 ((row - 1) * GRID_SIZE + col) else g1
  let g3 := if row < GRID_SIZE - 1 then flipAt g2 ((row + 1) * GRID_SIZE + col) else g2
  let g4 := if col > 0 then flipAt g3 (row * GRID_SIZE + (col - 1)) else g3
  let g5 := if col < GRID_SIZE - 1 then flipAt g4 (row * GRID_SIZE + (col + 1)) else g4
  g5

/-- `isLevelSolved` from `gameLogic.ts`: `grid.every(cell => cell === true)`. -/
def isLevelSolved (grid : List Bool) : Bool := grid.all (· == true)

/-- The plus-shaped set of positions the spec says a toggle at `i` affects:
the cell itself and every in-bounds orthogonal neighbour of the 3×3 board. -/
def affectedByToggle (i j : Nat) : Prop :=
  j = i
    ∨ (i / 3 > 0 ∧ j = (i / 3 - 1) * 3 + i % 3)
    ∨ (i / 3 < 2 ∧ j = (i / 3 + 1) * 3 + i % 3)
    ∨ (i % 3 > 0 ∧ j = (i / 3) * 3 + (i % 3 - 1))
    ∨ (i % 3 < 2 ∧ j = (i / 3) * 3 + (i % 3 + 1))

instance (i j : Nat) : Decidable (affectedByToggle i j) := by
  unfold affectedByToggle; infer_instance

/-- Any boolean list of length nine is a literal nine-element list. -/
theorem exists_nine_cells (g : List Bool) (h : g.length = 9) :
    ∃ a b c d e f x y z, g = [a, b, c, d, e, f, x, y, z] := by
  obtain _ | ⟨a, g⟩ := g; · simp at h
  obtain _ | ⟨b, g⟩ := g; · simp at h
  obtain _ | ⟨c, g⟩ := g; · simp at h
  obtain _ | ⟨d, g⟩ := g; · simp at h
  obtain _ | ⟨e, g⟩ := g; · simp at h
  obtain _ | ⟨f, g⟩ := g; · simp at h
  obtain _ | ⟨x, g⟩ := g; · simp at h
  obtain _ | ⟨y, g⟩ := g; · simp at h
  obtain _ | ⟨z, g⟩ := g; · simp at h
  obtain rfl : g = [] := by simpa using h
  exact ⟨a, b, c, d, e, f, x, y, z, rfl⟩

example : toggleGridCell [false, false, false, false, false, false, false, false, false] 0
    = [true, true, false, true, false, false, false, false, false] := by decide

example : toggleGridCell [false, false, false, false, false, false, false, false, false] 4
    = [false, true, false, true, true, true, false, true, false] := by decide

theorem bool_not_bne_self (b : Bool) : ((!b) != b) = true := by cases b <;> rfl

theorem bool_bne_self (b : Bool) : (b != b) = false := by cases b <;> rfl

/-- **C2.** On a length-9 grid with an in-range index, `toggleGridCell`
returns a length-9 grid in which exactly the clicked cell and its
in-bounds orthogonal neighbours are inverted (so diagonal neighbours and
all other cells are unchanged), and the number of changed cells is 3 for
a corner index, 4 for a non-corner edge index and 5 for the interior
index 4. -/
theorem toggleGridCell_plus_shape (g : List Bool) (hg : g.length = 9)
    (i : Nat) (hi : i < 9) :
    (toggleGridCell g i).length = 9 ∧
    (∀ j, j < 9 → (toggleGridCell g i).getD j false =
      if affectedByToggle i j then !(g.getD j false) else g.getD j false) ∧
    ((List.range 9).filter
        (fun j => (toggleGridCell g i).getD j false != g.getD j false)).length =
      if i = 4 then 5 else if i % 2 = 1 then 4 else 3 := by
  obtain ⟨a, b, c, d, e, f, x, y, z, rfl⟩ := exists_nine_cells g hg
  have hpt : ∀ j, j < 9 →
      (toggleGridCell [a, b, c, d, e, f, x, y, z] i).getD j false =
      if affectedByToggle i j
      then !([a, b, c, d, e, f, x, y, z].getD j false)
      else [a, b, c, d, e, f, x, y, z].getD j false := by
    interval_cases i <;> (intro j hj; interval_cases j <;> rfl)
  refine ⟨?_, hpt, ?_⟩
  · interval_cases i <;> rfl
  · have hfe : (List.range 9).filter
        (fun j => (toggleGridCell [a, b, c, d, e, f, x, y, z] i).getD j false !=
          [a, b, c, d, e, f, x, y, z].getD j false) =
        (List.range 9).filter (fun j => decide (affectedByToggle i j)) := by
      apply List.filter_congr
      intro j hj
      have hj9 : j < 9 := List.mem_range.mp hj
      rw [hpt j hj9]
      by_cases h : affectedByToggle i j
      · rw [if_pos h, bool_not_bne_self]
        exact (decide_eq_true h).symm
      · rw [if_neg h, bool_bne_self]
        exact (decide_eq_false h).symm
    rw [hfe]
    interval_cases i <;> decide

/-- Witness for `toggleGridCell_plus_shape` at a concrete grid and the
corner index 0. -/
theorem toggleGridCell_plus_shape_witness :
    (toggleGridCell [true, false, true, false, true, false, true, false, true] 0).length = 9 ∧
    (∀ j, j < 9 →
      (toggleGridCell [true, false, true, false, true, false, true, false, true] 0).getD j false =
      if affectedByToggle 0 j
      then !([true, false, true, false, true, false, true, false, true].getD j false)
      else [true, false, true, false, true, false, true, false, true].getD j false) ∧
    ((List.range 9).filter
        (fun j => (toggleGridCell [true, false, true, false, true, false, true, false, true] 0).getD j false
          != [true, false, true, false, true, false, true, false, true].getD j false)).length =
      if (0 : Nat) = 4 then 5 else if (0 : Nat) % 2 = 1 then 4 else 3 :=
  toggleGridCell_plus_shape [true, false, true, false, true, false, true, false, true]
    (by decide) 0 (by decide)

/-- **C3.** Toggling the same in-range index twice on a length-9 grid
returns the original grid. -/
theorem toggleGridCell_involutive (g : List Bool) (hg : g.length = 9)
    (i : Nat) (hi : i < 9) :
    toggleGridCell (toggleGridCell g i) i = g := by
  obtain ⟨a, b, c, d, e, f, x, y, z, rfl⟩ := exists_nine_cells g hg
  interval_cases i <;> simp [toggleGridCell, flipAt, GRID_SIZE]

/-- Witness for `toggleGridCell_involutive` at a concrete grid and index. -/
theorem toggleGridCell_involutive_witness :
    toggleGridCell (toggleGridCell [true, false, false, true, false, true, false, true, true] 4) 4 =
      [true, false, false, true, false, true, false, true, true] :=
  toggleGridCell_involutive [true, false, false, true, false, true, false, true, true]
    (by decide) 4 (by decide)

/-! ## Level repository (`src/components/AdminPanel.tsx`)

The import/export pipeline works on untyped JSON data, modelled by
`JValue`.  JS numbers inside imported documents are modelled as `Int`
(no fractional JSON numbers occur in any property considered here). -/

namespace AdminPanel

/-- A parsed JSON value, the result of `JSON.parse`. -/
inductive JValue where
  | null : JValue
  | bool : Bool → JValue
  | num : Int → JValue
  | str : String → JValue
  | arr : List JValue → JValue
  | obj : List (String × JValue) → JValue

/-- JS truthiness of a JSON value (`null`, `false`, `0` and `""` are
falsy; arrays and objects are always truthy). -/
def truthy : JValue → Bool
  | .null => false
  | .bool b => b
  | .num n => n != 0
  | .str s => s != ""
  | .arr _ => true
  | .obj _ => true

/-- `Array.isArray`. -/
def isJsArray : JValue → Bool
  | .arr _ => true
  | _ => false

/-- `.length` of a value already known to be an array (only ever applied
after an `Array.isArray` check, as in the source). -/
def arrayLen : JValue → Nat
  | .arr xs => xs.length
  | _ => 0

/-- `typeof v === 'object'` (true for `null`, arrays and objects). -/
def typeofIsObject : JValue → Bool
  | .null => true
  | .arr _ => true
  | .obj _ => true
  | _ => false

/-- Property lookup on an object, last binding wins (JS object
semantics for duplicate keys from `JSON.parse`); `none` models
`undefined`. -/
def lookupField : JValue → String → Option JValue
  | .obj fs, k => fs.foldl (fun acc p => if p.1 = k then some p.2 else acc) none
  | _, _ => none

/-- The error outcomes of `parseAndLoadLevels`, caught by its
`try`/`catch` and shown to the user via `alert`. -/
inductive ImportError where
  | invalidDocument : ImportError
  | noValidLevels : ImportError
  | typeError : ImportError
deriving DecidableEq

/-- JS property access `v.k`: throws a `TypeError` when `v` is `null`,
otherwise yields the field (or `undefined`, modelled as `none`). -/
def getField : JValue → String → Except ImportError (Option JValue)
  | .null, _ => .error .typeError
  | v, k => .ok (lookupField v k)

/-- The validation predicate of `parseAndLoadLevels`:
`l.initialState && Array.isArray(l.initialState) && l.initialState.length === TOTAL_CELLS`. -/
def isValidLevel (l : JValue) : Except ImportError Bool := do
  let f ← getField l "initialState"
  match f with
  | none => pure false
  | some v => pure (truthy v && (isJsArray v && (arrayLen v == TOTAL_CELLS)))

/-- `parsed.filter(isValidLevel)`: JS `Array.prototype.filter` evaluates
the predicate left to right and propagates any exception it throws. -/
def filterValid : List JValue → Except ImportError (List JValue)
  | [] => .ok []
  | l :: ls => do
      let b ← isValidLevel l
      let rest ← filterValid ls
      pure (if b then l :: rest else rest)

example : isValidLevel (.obj [("initialState", .arr (List.replicate 9 (.bool true)))]) = .ok true :=
  rfl
example : isValidLevel (.obj [("initialState", .arr (List.replicate 8 (.bool true)))]) = .ok false :=
  rfl
example : isValidLevel (.num 3) = .ok false := rfl
example : isValidLevel .null = .error .typeError := rfl

/-- One decimal digit as a character. -/
def digitChar : Nat → Char
  | 0 => '0' | 1 => '1' | 2 => '2' | 3 => '3' | 4 => '4'
  | 5 => '5' | 6 => '6' | 7 => '7' | 8 => '8' | 9 => '9'
  | _ => '*'

/-- The decimal digit denoted by a character (inverse of `digitChar` on
digits below ten). -/
def digitVal : Char → Nat
  | '0' => 0 | '1' => 1 | '2' => 2 | '3' => 3 | '4' => 4
  | '5' => 5 | '6' => 6 | '7' => 7 | '8' => 8 | '9' => 9
  | _ => 10

/-- The character list of the decimal rendering of a natural number,
modelling how a JS template literal interpolates a numeric value. -/
def decChars (n : Nat) : List Char :=
  if n = 0 then ['0'] else ((Nat.digits 10 n).map digitChar).reverse

/-- Decimal rendering of a natural number as a string (JS template
literal interpolation `${n}`). -/
def jsNatToString (n : Nat) : String := ⟨decChars n⟩

/-- The freshly generated identifier of an imported level:
`` `import-${Date.now()}-${idx}-${randomSuffix}` `` where `randomSuffix`
stands for `Math.random().toString(36).substr(2, 9)`. -/
def genId (now idx : Nat) (randomSuffix : String) : String :=
  "import-" ++ jsNatToString now ++ "-" ++ jsNatToString idx ++ "-" ++ randomSuffix

/-- The JS `||` operator applied to a possibly-`undefined` field value:
yields the field value when it is present and truthy, the default
otherwise. -/
def jsOr (v : Option JValue) (dflt : JValue) : JValue :=
  match v with
  | some x => if truthy x then x else dflt
  | none => dflt

/-- A stored level, as produced at runtime by `parseAndLoadLevels` (the
TS `Level` interface declares `name: string` and
`initialState: CellState[]`, but the import code stores the raw JSON
field values unconverted, so the runtime content is modelled as raw
`JValue`s). -/
structure Level where
  id : String
  name : JValue
  initialState : JValue

/-- The `cleanedLevels` mapping of one accepted element:
regenerated id, `name: l.name || ` `` `导入关卡 ${idx + 1}` ``,
`initialState: l.initialState` (stored raw).  Accepted elements are
non-`null` objects, so plain (non-throwing) field lookup is exact here. -/
def cleanLevel (now : Nat) (randomSuffix : String) (idx : Nat) (l : JValue) : Level :=
  { id := genId now idx randomSuffix
    name := jsOr (lookupField l "name") (.str ("导入关卡 " ++ jsNatToString (idx + 1)))
    initialState := (lookupField l "initialState").getD .null }

/-- `validLevels.map((l, idx) => ...)`: the per-element random suffix is
drawn from the stream `rand`, indexed by the element's position. -/
def cleanLevels (now : Nat) (rand : Nat → String) : Nat → List JValue → List Level
  | _, [] => []
  | idx, l :: ls => cleanLevel now (rand idx) idx l :: cleanLevels now rand (idx + 1) ls

/-- The single-object auto-wrap of `parseAndLoadLevels`:
`if (!Array.isArray(parsed) && typeof parsed === 'object') parsed = [parsed]`. -/
def wrapSingle (parsed : JValue) : JValue :=
  if !(isJsArray parsed) && typeofIsObject parsed then .arr [parsed] else parsed

/-- The whole import computation of `parseAndLoadLevels`, starting from
the already-parsed JSON value: wrap a bare object, reject non-arrays,
filter out invalid elements, reject an empty accepted list, and clean
the accepted elements.  `now` is `Date.now()` at import time and `rand`
the stream of random suffixes. -/
def importLevels (now : Nat) (rand : Nat → String) (parsed : JValue) :
    Except ImportError (List Level) := do
  let p := wrapSingle parsed
  match p with
  | .arr elems =>
      do
        let valid ← filterValid elems
        if valid.length = 0 then
          throw .noValidLevels
        else
          pure (cleanLevels now rand 0 valid)
  | _ => throw .invalidDocument

/-- The resulting level list: on success `setLevels(prev => [...prev,
...cleanedLevels])` appends, on any caught error the state update never
runs and the list is untouched. -/
def runImport (now : Nat) (rand : Nat → String) (parsed : JValue) (prev : List Level) :
    List Level :=
  match importLevels now rand parsed with
  | .ok cleaned => prev ++ cleaned
  | .error _ => prev

theorem digitChar_ne_dash (d : Nat) : digitChar d ≠ '-' := by
  unfold digitChar
  split <;> decide

theorem digitVal_digitChar (d : Nat) (hd : d < 10) : digitVal (digitChar d) = d := by
  interval_cases d <;> rfl

theorem decChars_ne_dash (n : Nat) : '-' ∉ decChars n := by
  unfold decChars
  split
  · decide
  · intro hmem
    rw [List.mem_reverse, List.mem_map] at hmem
    obtain ⟨d, _, hd⟩ := hmem
    exact digitChar_ne_dash d hd

theorem map_digitChar_cancel (l : List Nat) (hl : ∀ d ∈ l, d < 10) :
    (l.map digitChar).map digitVal = l := by
  rw [List.map_map]
  calc (l.map (digitVal ∘ digitChar)) = l.map id := by
        apply List.map_congr_left
        intro d hd
        exact digitVal_digitChar d (hl d hd)
    _ = l := List.map_id l

theorem digits_base10_lt (n : Nat) : ∀ d ∈ Nat.digits 10 n, d < 10 := by
  intro d hd
  exact Nat.digits_lt_base (by norm_num) hd

theorem decChars_inj {m n : Nat} (h : decChars m = decChars n) : m = n := by
  have key : ∀ k : Nat, k ≠ 0 → decChars k = ['0'] → False := by
    intro k hk hdec
    unfold decChars at hdec
    rw [if_neg hk] at hdec
    have hmap : (Nat.digits 10 k).map digitChar = ['0'] := by
      have := congrArg List.reverse hdec
      simpa using this
    have hdig : Nat.digits 10 k = [0] := by
      have := congrArg (List.map digitVal) hmap
      rw [map_digitChar_cancel _ (digits_base10_lt k)] at this
      simpa [digitVal] using this
    have : k = 0 := by
      have := congrArg (Nat.ofDigits 10) hdig
      simpa [Nat.ofDigits_digits, Nat.ofDigits] using this
    exact hk this
  by_cases hm : m = 0 <;> by_cases hn : n = 0
  · exact hm.trans hn.symm
  · exfalso
    apply key n hn
    rw [← h]
    unfold decChars
    rw [if_pos hm]
  · exfalso
    apply key m hm
    rw [h]
    unfold decChars
    rw [if_pos hn]
  · unfold decChars at h
    rw [if_neg hm, if_neg hn] at h
    have h2 : (Nat.digits 10 m).map digitChar = (Nat.digits 10 n).map digitChar := by
      have := congrArg List.reverse h
      simpa using this
    have h3 := congrArg (List.map digitVal) h2
    rw [map_digitChar_cancel _ (digits_base10_lt m),
        map_digitChar_cancel _ (digits_base10_lt n)] at h3
    have := congrArg (Nat.ofDigits 10) h3
    simpa [Nat.ofDigits_digits] using this

/-- Splitting a character list at the first occurrence of a marker
character is unambiguous. -/
theorem append_cons_inj {α : Type} (c : α) :
    ∀ (as bs as' bs' : List α), c ∉ as → c ∉ bs →
      as ++ c :: as' = bs ++ c :: bs' → as = bs ∧ as' = bs'
  | [], [], as', bs', _, _, h => by
      simp only [List.nil_append, List.cons.injEq] at h
      exact ⟨rfl, h.2⟩
  | [], b :: bs, as', bs', _, hb, h => by
      simp only [List.nil_append, List.cons_append, List.cons.injEq] at h
      exact absurd (h.1 ▸ List.mem_cons_self b bs) hb
  | a :: as, [], as', bs', ha, _, h => by
      simp only [List.cons_append, List.nil_append, List.cons.injEq] at h
      exact absurd (h.1.symm ▸ List.mem_cons_self a as) ha
  | a :: as, b :: bs, as', bs', ha, hb, h => by
      simp only [List.cons_append, List.cons.injEq] at h
      obtain ⟨hab, htl⟩ := h
      have := append_cons_inj c as bs as' bs'
        (fun hmem => ha (List.mem_cons_of_mem a hmem))
        (fun hmem => hb (List.mem_cons_of_mem b hmem)) htl
      exact ⟨by rw [hab, this.1], this.2⟩

/-- Two generated ids with the same timestamp but different sequence
indices are distinct (the random suffix contains no dash, so the id
decomposes unambiguously). -/
theorem genId_ne (t i j : Nat) (ri rj : String) (hij : i ≠ j) :
    genId t i ri ≠ genId t j rj := by
  intro h
  apply hij
  have hd := congrArg String.data h
  simp only [genId, jsNatToString, String.data_append, List.append_assoc] at hd
  have hd2 := List.append_cancel_left hd
  have hd3 := List.append_cancel_left hd2
  have hd4 := List.append_cancel_left hd3
  rw [List.singleton_append, List.singleton_append] at hd4
  have hsplit := append_cons_inj '-' (decChars i) (decChars j) ri.data rj.data
    (decChars_ne_dash i) (decChars_ne_dash j) hd4
  exact decChars_inj hsplit.1

theorem cleanLevels_length (now : Nat) (rand : Nat → String) :
    ∀ (j : Nat) (ls : List JValue), (cleanLevels now rand j ls).length = ls.length
  | _, [] => rfl
  | j, _ :: ls => by
      simp only [cleanLevels, List.length_cons]
      rw [cleanLevels_length now rand (j + 1) ls]

theorem cleanLevels_map_id (now : Nat) (rand : Nat → String) :
    ∀ (j : Nat) (ls : List JValue),
      (cleanLevels now rand j ls).map (fun l => l.id) =
        (List.range ls.length).map (fun k => genId now (j + k) (rand (j + k)))
  | _, [] => rfl
  | j, l :: ls => by
      simp only [cleanLevels, List.map_cons, List.length_cons, List.range_succ_eq_map,
        List.map_map]
      rw [cleanLevels_map_id now rand (j + 1) ls]
      congr 1
      apply List.map_congr_left
      intro k _
      simp only [Function.comp_apply, Nat.succ_eq_add_one]
      have harith : j + 1 + k = j + (k + 1) := by omega
      rw [harith]

theorem cleanLevels_map_initialState (now : Nat) (rand : Nat → String) :
    ∀ (j : Nat) (ls : List JValue),
      (cleanLevels now rand j ls).map (fun l => l.initialState) =
        ls.map (fun l => (lookupField l "initialState").getD .null)
  | _, [] => rfl
  | j, l :: ls => by
      simp only [cleanLevels, List.map_cons]
      rw [cleanLevels_map_initialState now rand (j + 1) ls]
      rfl

/-- The claim's acceptance predicate, stated from the spec's words: the
candidate has an `initialState` field that is an array of exactly nine
boolean values. -/
def nineBooleanShape (l : JValue) : Bool :=
  match lookupField l "initialState" with
  | some (.arr xs) =>
      xs.length == 9 && xs.all (fun x => match x with | .bool _ => true | _ => false)
  | _ => false

/-- The amended acceptance predicate: the candidate has an
`initialState` field that is an array of exactly nine elements; the
elements' types are not checked. -/
def arrayNineShape (l : JValue) : Bool :=
  match lookupField l "initialState" with
  | some (.arr xs) => xs.length == 9
  | _ => false

/-- **C4, counterexample.** A candidate whose `initialState` is an array
of nine *numbers* is accepted by the validation of
`parseAndLoadLevels`, although it is not a sequence of nine booleans:
the claimed "iff ... exactly 9 booleans" fails in the right-to-left
element-type part. -/
theorem isValidLevel_accepts_nonboolean :
    isValidLevel (.obj [("initialState", .arr (List.replicate 9 (.num 1)))]) = .ok true ∧
    nineBooleanShape (.obj [("initialState", .arr (List.replicate 9 (.num 1)))]) = false :=
  ⟨rfl, rfl⟩

/-- **C4, amended.** Validation accepts a (non-`null`) candidate iff it
has an `initialState` field that is an array of length exactly nine
(element types are not checked); for an accepted candidate the name
defaults to the auto-generated label when the `name` field is absent or
the empty string, and the stored id is the freshly generated
`import-...` id, whatever the input's `id` field was. -/
theorem isValidLevel_amended (l : JValue) (hl : l ≠ .null)
    (now idx : Nat) (r : String) :
    isValidLevel l = .ok (arrayNineShape l) ∧
    ((lookupField l "name" = none ∨ lookupField l "name" = some (.str "")) →
      (cleanLevel now r idx l).name = .str ("导入关卡 " ++ jsNatToString (idx + 1))) ∧
    (cleanLevel now r idx l).id = genId now idx r := by
  refine ⟨?_, ?_, rfl⟩
  · cases l with
    | null => exact absurd rfl hl
    | bool b => rfl
    | num n => rfl
    | str s => rfl
    | arr xs => rfl
    | obj fs =>
        cases hlk : lookupField (.obj fs) "initialState" with
        | none =>
            simp [isValidLevel, getField, hlk, arrayNineShape, Bind.bind, Except.bind,
              pure, Except.pure]
        | some v =>
            cases v <;>
              simp [isValidLevel, getField, hlk, arrayNineShape, truthy, isJsArray,
                arrayLen, TOTAL_CELLS, GRID_SIZE, Bind.bind, Except.bind, pure, Except.pure]
  · intro hname
    rcases hname with h | h <;> simp [cleanLevel, jsOr, h, truthy]

/-- Witness for `isValidLevel_amended` at a concrete accepted candidate
with no `name` field and an input `id` that gets discarded. -/
theorem isValidLevel_amended_witness :
    isValidLevel (.obj [("id", .str "old-id"),
        ("initialState", .arr (List.replicate 9 (.bool false)))]) =
      .ok (arrayNineShape (.obj [("id", .str "old-id"),
        ("initialState", .arr (List.replicate 9 (.bool false)))])) ∧
    ((lookupField (.obj [("id", .str "old-id"),
        ("initialState", .arr (List.replicate 9 (.bool false)))]) "name" = none ∨
      lookupField (.obj [("id", .str "old-id"),
        ("initialState", .arr (List.replicate 9 (.bool false)))]) "name" = some (.str "")) →
      (cleanLevel 1700000000000 "k3j9fq2xp" 0 (.obj [("id", .str "old-id"),
        ("initialState", .arr (List.replicate 9 (.bool false)))])).name =
        .str ("导入关卡 " ++ jsNatToString (0 + 1))) ∧
    (cleanLevel 1700000000000 "k3j9fq2xp" 0 (.obj [("id", .str "old-id"),
        ("initialState", .arr (List.replicate 9 (.bool false)))])).id =
      genId 1700000000000 0 "k3j9fq2xp" :=
  isValidLevel_amended
    (.obj [("id", .str "old-id"), ("initialState", .arr (List.replicate 9 (.bool false)))])
    (fun h => by cases h) 1700000000000 0 "k3j9fq2xp"

theorem importLevels_on_array (now : Nat) (rand : Nat → String)
    (elems valids : List JValue) (hv : filterValid elems = .ok valids) :
    importLevels now rand (.arr elems) =
      if valids.length = 0 then .error .noValidLevels
      else .ok (cleanLevels now rand 0 valids) := by
  simp [importLevels, wrapSingle, isJsArray, typeofIsObject, hv, Bind.bind, Except.bind,
    pure, Except.pure, throw, throwThe, MonadExceptOf.throw]

theorem importLevels_on_array_throw (now : Nat) (rand : Nat → String)
    (elems : List JValue) (e : ImportError) (hv : filterValid elems = .error e) :
    importLevels now rand (.arr elems) = .error e := by
  simp [importLevels, wrapSingle, isJsArray, typeofIsObject, hv, Bind.bind, Except.bind,
    pure, Except.pure, throw, throwThe, MonadExceptOf.throw]

/-- **C5, counterexample.** The claim fails on batches containing a
JSON `null`: `typeof null === 'object'`, so a `null` element reaches the
validation filter, where `l.initialState` throws a TypeError.  The
batch `[null]` has zero elements passing shape validation yet fails
with a TypeError, not `NoValidLevels`; and the batch `[validObject,
null]` aborts the whole import instead of dropping the invalid element
and keeping the valid one. -/
theorem importLevels_null_aborts :
    importLevels 42 (fun _ => "abcdefghi") (.arr [.null]) = .error .typeError ∧
    (.error .typeError : Except ImportError (List Level)) ≠ .error .noValidLevels ∧
    importLevels 42 (fun _ => "abcdefghi")
        (.arr [.obj [("initialState", .arr (List.replicate 9 (.bool true)))], .null]) =
      .error .typeError := by
  refine ⟨rfl, ?_, rfl⟩
  intro h
  injection h with h'
  exact absurd h' (by decide)

/-- **C5, amended.** When validating the batch completes without a
thrown TypeError (no element is `null` — JS property access on `null`
throws), a batch with zero elements passing shape validation fails with
the `NoValidLevels` error, and invalid individual elements in a batch
that also has valid ones are dropped without aborting (the accepted
count is exactly the number of valid elements); a batch whose
validation throws instead makes the whole import fail with that
TypeError.  In every failure case the existing level list is left
completely unmodified. -/
theorem importLevels_noValidLevels (elems : List JValue) (prev : List Level)
    (now : Nat) (rand : Nat → String) :
    (∀ valids, filterValid elems = .ok valids →
      (valids = [] →
        importLevels now rand (.arr elems) = .error .noValidLevels ∧
        runImport now rand (.arr elems) prev = prev) ∧
      (valids ≠ [] →
        importLevels now rand (.arr elems) = .ok (cleanLevels now rand 0 valids) ∧
        (cleanLevels now rand 0 valids).length = valids.length ∧
        runImport now rand (.arr elems) prev = prev ++ cleanLevels now rand 0 valids)) ∧
    (∀ e, filterValid elems = .error e →
      importLevels now rand (.arr elems) = .error e ∧
      runImport now rand (.arr elems) prev = prev) := by
  constructor
  · intro valids hv
    have hw := importLevels_on_array now rand elems valids hv
    constructor
    · rintro rfl
      simp only [List.length_nil, if_pos rfl] at hw
      exact ⟨hw, by simp [runImport, hw]⟩
    · intro hne
      have hlen : valids.length ≠ 0 := by simpa [List.length_eq_zero] using hne
      rw [if_neg hlen] at hw
      exact ⟨hw, cleanLevels_length now rand 0 valids, by simp [runImport, hw]⟩
  · intro e hv
    have hw := importLevels_on_array_throw now rand elems e hv
    exact ⟨hw, by simp [runImport, hw]⟩

/-- Witness for `importLevels_noValidLevels`: a two-element batch with
no valid (and no throwing) element errors out with `NoValidLevels` and
leaves the existing list unchanged; a batch with a valid object and a
`null` fails with a TypeError and also leaves the existing list
unchanged. -/
theorem importLevels_noValidLevels_witness :
    importLevels 42 (fun _ => "abcdefghi") (.arr [.num 3, .str "x"]) =
      .error .noValidLevels ∧
    runImport 42 (fun _ => "abcdefghi") (.arr [.num 3, .str "x"])
      [⟨"existing", .str "kept", .null⟩] = [⟨"existing", .str "kept", .null⟩] ∧
    importLevels 42 (fun _ => "abcdefghi")
        (.arr [.obj [("initialState", .arr (List.replicate 9 (.bool true)))], .null]) =
      .error .typeError ∧
    runImport 42 (fun _ => "abcdefghi")
        (.arr [.obj [("initialState", .arr (List.replicate 9 (.bool true)))], .null])
      [⟨"existing", .str "kept", .null⟩] = [⟨"existing", .str "kept", .null⟩] := by
  have h1 := ((importLevels_noValidLevels [.num 3, .str "x"]
    [⟨"existing", .str "kept", .null⟩] 42 (fun _ => "abcdefghi")).1 [] rfl).1 rfl
  have h2 := (importLevels_noValidLevels
    [.obj [("initialState", .arr (List.replicate 9 (.bool true)))], .null]
    [⟨"existing", .str "kept", .null⟩] 42 (fun _ => "abcdefghi")).2 .typeError rfl
  exact ⟨h1.1, h1.2, h2.1, h2.2⟩

/-- **C6.** Importing a bare object behaves exactly like importing the
one-element collection holding it; on a successful import the new list
is the old list with the cleaned levels appended (the old entries are a
prefix, untouched), the accepted levels keep their input order (their
raw `initialState` values in order), and each receives the freshly
generated `import-{now}-{idx}-{suffix}` id, all of which are pairwise
distinct within the batch. -/
theorem importLevels_append_fresh_ids
    (fs : List (String × JValue)) (elems valids : List JValue) (prev : List Level)
    (now : Nat) (rand : Nat → String)
    (hv : filterValid elems = .ok valids) (hne : valids ≠ []) :
    importLevels now rand (.obj fs) = importLevels now rand (.arr [.obj fs]) ∧
    runImport now rand (.arr elems) prev = prev ++ cleanLevels now rand 0 valids ∧
    (runImport now rand (.arr elems) prev).take prev.length = prev ∧
    (cleanLevels now rand 0 valids).map (fun l => l.initialState) =
      valids.map (fun l => (lookupField l "initialState").getD .null) ∧
    (cleanLevels now rand 0 valids).map (fun l => l.id) =
      (List.range valids.length).map (fun k => genId now k (rand k)) ∧
    ((cleanLevels now rand 0 valids).map (fun l => l.id)).Pairwise (fun a b => a ≠ b) := by
  have hw := importLevels_on_array now rand elems valids hv
  have hlen : valids.length ≠ 0 := by simpa [List.length_eq_zero] using hne
  rw [if_neg hlen] at hw
  have hrun : runImport now rand (.arr elems) prev = prev ++ cleanLevels now rand 0 valids := by
    simp [runImport, hw]
  have hid : (cleanLevels now rand 0 valids).map (fun l => l.id) =
      (List.range valids.length).map (fun k => genId now k (rand k)) := by
    have h0 := cleanLevels_map_id now rand 0 valids
    simpa using h0
  refine ⟨rfl, hrun, ?_, cleanLevels_map_initialState now rand 0 valids, hid, ?_⟩
  · rw [hrun]
    exact List.take_left prev (cleanLevels now rand 0 valids)
  · rw [hid, List.pairwise_map]
    exact (List.pairwise_lt_range _).imp (fun hab => genId_ne now _ _ _ _ (Nat.ne_of_lt hab))

/-- Witness for `importLevels_append_fresh_ids`: a batch of one valid
object and one invalid element, appended to a one-element existing
list. -/
theorem importLevels_append_fresh_ids_witness :
    importLevels 99 (fun _ => "r4nd0msfx")
        (.obj [("initialState", .arr (List.replicate 9 (.bool true)))]) =
      importLevels 99 (fun _ => "r4nd0msfx")
        (.arr [.obj [("initialState", .arr (List.replicate 9 (.bool true)))]]) ∧
    runImport 99 (fun _ => "r4nd0msfx")
        (.arr [.obj [("initialState", .arr (List.replicate 9 (.bool true)))], .num 7])
        [⟨"existing", .str "kept", .null⟩] =
      [⟨"existing", .str "kept", .null⟩] ++
        cleanLevels 99 (fun _ => "r4nd0msfx") 0
          [.obj [("initialState", .arr (List.replicate 9 (.bool true)))]] ∧
    (runImport 99 (fun _ => "r4nd0msfx")
        (.arr [.obj [("initialState", .arr (List.replicate 9 (.bool true)))], .num 7])
        [⟨"existing", .str "kept", .null⟩]).take
          [(⟨"existing", .str "kept", .null⟩ : Level)].length =
      [⟨"existing", .str "kept", .null⟩] ∧
    (cleanLevels 99 (fun _ => "r4nd0msfx") 0
        [.obj [("initialState", .arr (List.replicate 9 (.bool true)))]]).map
          (fun l => l.initialState) =
      [JValue.obj [("initialState", .arr (List.replicate 9 (.bool true)))]].map
        (fun l => (lookupField l "initialState").getD .null) ∧
    (cleanLevels 99 (fun _ => "r4nd0msfx") 0
        [.obj [("initialState", .arr (List.replicate 9 (.bool true)))]]).map
          (fun l => l.id) =
      (List.range
        [JValue.obj [("initialState", .arr (List.replicate 9 (.bool true)))]].length).map
          (fun k => genId 99 k ((fun _ => "r4nd0msfx") k)) ∧
    ((cleanLevels 99 (fun _ => "r4nd0msfx") 0
        [.obj [("initialState", .arr (List.replicate 9 (.bool true)))]]).map
          (fun l => l.id)).Pairwise (fun a b => a ≠ b) :=
  importLevels_append_fresh_ids
    [("initialState", .arr (List.replicate 9 (.bool true)))]
    [.obj [("initialState", .arr (List.replicate 9 (.bool true)))], .num 7]
    [.obj [("initialState", .arr (List.replicate 9 (.bool true)))]]
    [⟨"existing", .str "kept", .null⟩] 99 (fun _ => "r4nd0msfx")
    rfl (List.cons_ne_nil _ _)

/-- Decimal rendering of a JSON integer (JS number-to-string for the
integral values that occur here). -/
def jsIntToString (n : Int) : String :=
  if n < 0 then "-" ++ jsNatToString n.natAbs else jsNatToString n.natAbs

mutual

/-- Modelled `JSON.stringify` of a JSON value.  The pretty-printing
whitespace of the source's `JSON.stringify(levels, null, 2)` and string
escaping are cosmetic and omitted; the document's structure and field
order are preserved. -/
def stringifyJ : JValue → String
  | .null => "null"
  | .bool true => "true"
  | .bool false => "false"
  | .num n => jsIntToString n
  | .str s => "\"" ++ s ++ "\""
  | .arr xs => "[" ++ stringifyItems xs ++ "]"
  | .obj fs => "\x7b" ++ stringifyFields fs ++ "\x7d"

def stringifyItems : List JValue → String
  | [] => ""
  | [x] => stringifyJ x
  | x :: xs => stringifyJ x ++ "," ++ stringifyItems xs

def stringifyFields : List (String × JValue) → String
  | [] => ""
  | [(k, v)] => "\"" ++ k ++ "\":" ++ stringifyJ v
  | (k, v) :: fs => "\"" ++ k ++ "\":" ++ stringifyJ v ++ "," ++ stringifyFields fs

end

/-- The serialized export document: `JSON.stringify(levels, null, 2)`
over the stored level list. -/
def stringifyLevels (levels : List Level) : String :=
  stringifyJ (.arr (levels.map (fun l =>
    .obj [("id", .str l.id), ("name", l.name), ("initialState", l.initialState)])))

/-- `handleJsonExport`: unconditionally serializes the current level
list and stores it as the export-modal state (`setExportData(data)`). -/
def handleJsonExport (levels : List Level) : Option String :=
  some (stringifyLevels levels)

/-- A click on the export button.  The button carries
`disabled={levels.length === 0}`, so `handleJsonExport` only runs when
the list is non-empty; on an empty list the click is a no-op and
`exportData` keeps its previous value. -/
def exportButtonClick (levels : List Level) (exportData : Option String) : Option String :=
  if levels.length = 0 then exportData else handleJsonExport levels

/-- **C10.** Requesting an export while the level list is empty is a
no-op: the disabled export button leaves the export state untouched, so
no serialized document (not even an empty one) is ever produced for a
zero-level list; with a non-empty list the click produces the
serialized document. -/
theorem exportButtonClick_empty_noop (d : Option String) (levels : List Level) :
    exportButtonClick [] d = d ∧
    (levels ≠ [] → exportButtonClick levels d = some (stringifyLevels levels)) := by
  constructor
  · rfl
  · intro hne
    have hlen : levels.length ≠ 0 := by simpa [List.length_eq_zero] using hne
    simp [exportButtonClick, hlen, handleJsonExport]

/-- Witness for `exportButtonClick_empty_noop` at a concrete export
state and a concrete one-level list. -/
theorem exportButtonClick_empty_noop_witness :
    exportButtonClick [] none = none ∧
    exportButtonClick [⟨"lv1", .str "one", .arr (List.replicate 9 (.bool true))⟩] none =
      some (stringifyLevels [⟨"lv1", .str "one", .arr (List.replicate 9 (.bool true))⟩]) :=
  ⟨(exportButtonClick_empty_noop none
      [⟨"lv1", .str "one", .arr (List.replicate 9 (.bool true))⟩]).1,
   (exportButtonClick_empty_noop none
      [⟨"lv1", .str "one", .arr (List.replicate 9 (.bool true))⟩]).2
     (List.cons_ne_nil _ _)⟩

end AdminPanel

/-! ## Competition run controller (`src/App.tsx` and `src/types.ts`) -/

namespace App

/-- A stored level as typed by `types.ts` and consumed by `App.tsx`. -/
structure Level where
  id : String
  name : String
  initialState : List Bool
deriving DecidableEq

/-- `GameStats` from `types.ts`. -/
structure GameStats where
  timeSeconds : Nat
  steps : Nat
deriving DecidableEq

/-- `LevelRecord` from `types.ts`. -/
structure LevelRecord where
  levelId : String
  name : String
  stats : GameStats
deriving DecidableEq

/-- `GameStatus` from `types.ts`. -/
inductive GameStatus where
  | SETUP
  | IDLE
  | PLAYING
  | LEVEL_COMPLETE
  | ALL_COMPLETE
deriving DecidableEq

/-- The React state of the `App` component read and written by the game
logic, plus one bookkeeping flag: `pendingAutoAdvance` records whether
the auto-advance `setTimeout` scheduled by `handleLevelComplete` is
still pending.  The source keeps no handle for that timeout and never
cancels it (`quitToSetup` clears only the 100 ms display-tick
interval), so no modelled operation clears the flag other than the
timer firing. -/
structure AppState where
  levels : List Level
  currentLevelIdx : Nat
  grid : List Bool
  status : GameStatus
  levelStats : GameStats
  history : List LevelRecord
  startTime : Option Nat
  pendingAutoAdvance : Bool
deriving DecidableEq

/-- Default for `levels[idx]` lookups; every lookup performed by the
modelled scenarios is in range. -/
def defaultLevel : Level := ⟨"", "", []⟩

/-- `quitToSetup`: clears the display-tick interval (presentation
only), closes the modal, resets `startTime` and returns to `SETUP`.
It does not touch the pending auto-advance timeout. -/
def quitToSetup (s : AppState) : AppState :=
  { s with startTime := none, status := .SETUP }

/-- `loadLevel(idx)`: no-op when `idx` is out of range, otherwise
installs a copy of the level's `initialState`, resets the per-level
stats to zero and clears `startTime`. -/
def loadLevel (s : AppState) (idx : Nat) : AppState :=
  if s.levels.length ≤ idx then s
  else
    { s with grid := (s.levels.getD idx defaultLevel).initialState
             levelStats := ⟨0, 0⟩
             startTime := none }

/-- `startPlayingLevel`: enter `PLAYING` and anchor the precision timer
at the current `Date.now()`. -/
def startPlayingLevel (s : AppState) (now : Nat) : AppState :=
  { s with status := .PLAYING, startTime := some now }

/-- `startGame`: no-op on an empty level list, otherwise enter `IDLE`,
reset the index and history, and load level 0. -/
def startGame (s : AppState) : AppState :=
  if s.levels.length = 0 then s
  else loadLevel { s with status := .IDLE, currentLevelIdx := 0, history := [] } 0

/-- `handleLevelComplete` up to (and excluding) its `setTimeout`
callback: the authoritative final time is recomputed from `Date.now()`
(`now`) and the stored `startTime` — not taken from the display tick's
last sampled `timeSeconds` — the final stats overwrite the per-level
stats with prior steps + 1 (the winning click), the `LevelRecord` is
appended and the status becomes `LEVEL_COMPLETE`; the scheduled
auto-advance timeout is recorded in `pendingAutoAdvance`.  (The
source's `finalGrid` parameter is unused in its body.) -/
def handleLevelComplete (s : AppState) (now : Nat) : AppState :=
  let currentLevel := s.levels.getD s.currentLevelIdx defaultLevel
  let finalTime :=
    match s.startTime with
    | some t => (now - t) / 1000
    | none => s.levelStats.timeSeconds
  let finalStats : GameStats := ⟨finalTime, s.levelStats.steps + 1⟩
  { s with levelStats := finalStats
           history := s.history ++ [⟨currentLevel.id, currentLevel.name, finalStats⟩]
           status := .LEVEL_COMPLETE
           pendingAutoAdvance := true }

/-- `handleCellClick(index)`: ignored outside `PLAYING`; otherwise the
grid is toggled, the step counter incremented, and when the new grid is
solved `handleLevelComplete` runs in the same event.  React batches the
event's state updates: `handleLevelComplete`'s
`setLevelStats(finalStats)` overwrites the step increment (both compute
prior steps + 1 from the render's `levelStats`), which the model
reflects by passing the pre-click stats on to `handleLevelComplete`. -/
def handleCellClick (s : AppState) (index : Nat) (now : Nat) : AppState :=
  if s.status ≠ .PLAYING then s
  else
    let newGrid := toggleGridCell s.grid index
    if isLevelSolved newGrid then
      handleLevelComplete { s with grid := newGrid } now
    else
      { s with grid := newGrid
               levelStats := ⟨s.levelStats.timeSeconds, s.levelStats.steps + 1⟩ }

/-- The auto-advance `setTimeout` callback scheduled by
`handleLevelComplete`, firing 1000 ms later: advance to the next level
and immediately start playing it, or — when no next level exists —
enter `ALL_COMPLETE`.  The callback checks no phase before acting and
is never cancelled.  (Its closure captures `currentLevelIdx` and
`levels` from the scheduling render; in every scenario considered here
those equal the current state's values, which the model uses.) -/
def autoAdvanceFire (s : AppState) (now : Nat) : AppState :=
  let nextIdx := s.currentLevelIdx + 1
  let s0 := { s with pendingAutoAdvance := false }
  if nextIdx < s.levels.length then
    let s1 := loadLevel { s0 with currentLevelIdx := nextIdx } nextIdx
    { s1 with status := .PLAYING, startTime := some now }
  else
    { s0 with status := .ALL_COMPLETE }

/-- The derived `totalStats` memo of `App.tsx`: reduce the history,
then include the current level's stats in `PLAYING` and
`LEVEL_COMPLETE` only. -/
def totalStats (history : List LevelRecord) (levelStats : GameStats)
    (status : GameStatus) : GameStats :=
  let historyTotal := history.foldl
    (fun acc curr => ⟨acc.timeSeconds + curr.stats.timeSeconds, acc.steps + curr.stats.steps⟩)
    ⟨0, 0⟩
  if status = .PLAYING ∨ status = .LEVEL_COMPLETE then
    ⟨historyTotal.timeSeconds + levelStats.timeSeconds, historyTotal.steps + levelStats.steps⟩
  else historyTotal

end App

namespace App

/-- First demo level of the quit scenario. -/
def levelOne : Level := ⟨"L1", "Level 1", List.replicate 9 true⟩

/-- Second demo level of the quit scenario. -/
def levelTwo : Level := ⟨"L2", "Level 2", List.replicate 9 false⟩

/-- The state right after completing level 1 of 2: `LEVEL_COMPLETE`
with the auto-advance timeout pending. -/
def quitScenario : AppState :=
  { levels := [levelOne, levelTwo]
    currentLevelIdx := 0
    grid := List.replicate 9 true
    status := .LEVEL_COMPLETE
    levelStats := ⟨2, 3⟩
    history := [⟨"L1", "Level 1", ⟨2, 3⟩⟩]
    startTime := some 1000
    pendingAutoAdvance := true }

/-- **C1.** The code violates the claim: quitting during
`LEVEL_COMPLETE` does return the phase to `SETUP`, but the auto-advance
timeout — stored in no handle, cancelled by nothing, and guarded by no
phase check — is still pending and, when it fires, mutates the run
state after the transition to `SETUP`: it forces the status to
`PLAYING`, advances `currentLevelIdx`, reloads the grid and resets the
per-level stats. -/
theorem stale_auto_advance_fires_after_quit :
    (quitToSetup quitScenario).status = .SETUP ∧
    (quitToSetup quitScenario).pendingAutoAdvance = true ∧
    (autoAdvanceFire (quitToSetup quitScenario) 5000).status = .PLAYING ∧
    (autoAdvanceFire (quitToSetup quitScenario) 5000).status ≠ .SETUP ∧
    (autoAdvanceFire (quitToSetup quitScenario) 5000).currentLevelIdx = 1 ∧
    (autoAdvanceFire (quitToSetup quitScenario) 5000).grid = levelTwo.initialState ∧
    (autoAdvanceFire (quitToSetup quitScenario) 5000).levelStats = ⟨0, 0⟩ := by
  decide

/-- **C7.** A winning toggle in `PLAYING` enters `LEVEL_COMPLETE`; the
final step count is the prior count plus one, the final elapsed time is
the wall-clock difference between the completion time and the stored
start timestamp (not the tick's last sampled `timeSeconds`), and a
`LevelRecord` carrying exactly these final stats is appended to the
history. -/
theorem winning_toggle_completes_level (s : AppState) (i now t0 : Nat)
    (hplay : s.status = .PLAYING)
    (hsolved : isLevelSolved (toggleGridCell s.grid i) = true)
    (hstart : s.startTime = some t0) :
    (handleCellClick s i now).status = .LEVEL_COMPLETE ∧
    (handleCellClick s i now).levelStats.steps = s.levelStats.steps + 1 ∧
    (handleCellClick s i now).levelStats.timeSeconds = (now - t0) / 1000 ∧
    (handleCellClick s i now).history = s.history ++
      [⟨(s.levels.getD s.currentLevelIdx defaultLevel).id,
        (s.levels.getD s.currentLevelIdx defaultLevel).name,
        ⟨(now - t0) / 1000, s.levelStats.steps + 1⟩⟩] := by
  refine ⟨?_, ?_, ?_, ?_⟩ <;>
    simp [handleCellClick, hplay, hsolved, handleLevelComplete, hstart]

/-- The concrete `PLAYING` state used to witness the winning-toggle
claim: one toggle at the centre solves the grid. -/
def playingScenario : AppState :=
  { levels := [⟨"W1", "Witness", List.replicate 9 true⟩]
    currentLevelIdx := 0
    grid := toggleGridCell (List.replicate 9 true) 4
    status := .PLAYING
    levelStats := ⟨7, 11⟩
    history := [⟨"P0", "Prev", ⟨10, 5⟩⟩]
    startTime := some 2000
    pendingAutoAdvance := false }

/-- Witness for `winning_toggle_completes_level` at the concrete
scenario. -/
theorem winning_toggle_completes_level_witness :
    (handleCellClick playingScenario 4 14999).status = .LEVEL_COMPLETE ∧
    (handleCellClick playingScenario 4 14999).levelStats.steps =
      playingScenario.levelStats.steps + 1 ∧
    (handleCellClick playingScenario 4 14999).levelStats.timeSeconds =
      (14999 - 2000) / 1000 ∧
    (handleCellClick playingScenario 4 14999).history = playingScenario.history ++
      [⟨(playingScenario.levels.getD playingScenario.currentLevelIdx defaultLevel).id,
        (playingScenario.levels.getD playingScenario.currentLevelIdx defaultLevel).name,
        ⟨(14999 - 2000) / 1000, playingScenario.levelStats.steps + 1⟩⟩] :=
  winning_toggle_completes_level playingScenario 4 14999 2000 rfl (by decide) rfl

/-- **C8.** A toggle received in any phase other than `PLAYING` leaves
the entire application state unchanged — grid, step count, stats,
history and phase — raising no error and counting no step. -/
theorem handleCellClick_noop_outside_playing (s : AppState) (i now : Nat)
    (h : s.status ≠ .PLAYING) : handleCellClick s i now = s := by
  simp [handleCellClick, h]

/-- A concrete `SETUP` state for the no-op witness. -/
def setupScenario : AppState :=
  { levels := [⟨"L1", "Level 1", List.replicate 9 false⟩]
    currentLevelIdx := 0
    grid := List.replicate 9 false
    status := .SETUP
    levelStats := ⟨0, 0⟩
    history := []
    startTime := none
    pendingAutoAdvance := false }

/-- Witness for `handleCellClick_noop_outside_playing` at a concrete
`SETUP` state. -/
theorem handleCellClick_noop_outside_playing_witness :
    handleCellClick setupScenario 4 123456 = setupScenario :=
  handleCellClick_noop_outside_playing setupScenario 4 123456 (by decide)

theorem foldl_stats (h : List LevelRecord) (acc : GameStats) :
    h.foldl
      (fun acc curr => ⟨acc.timeSeconds + curr.stats.timeSeconds, acc.steps + curr.stats.steps⟩)
      acc =
    ⟨acc.timeSeconds + (h.map (fun r => r.stats.timeSeconds)).sum,
     acc.steps + (h.map (fun r => r.stats.steps)).sum⟩ := by
  induction h generalizing acc with
  | nil => simp
  | cons r t ih => simp [ih, Nat.add_assoc]

/-- **C9.** The aggregated totals are the sums of elapsed seconds and
steps over the history entries, plus the current level's stats exactly
when the phase is `PLAYING` or `LEVEL_COMPLETE`, and without them when
the phase is `SETUP`, `IDLE` or `ALL_COMPLETE`. -/
theorem totalStats_characterization (history : List LevelRecord) (cur : GameStats)
    (st : GameStatus) :
    (st = .PLAYING ∨ st = .LEVEL_COMPLETE →
      totalStats history cur st =
        ⟨(history.map (fun r => r.stats.timeSeconds)).sum + cur.timeSeconds,
         (history.map (fun r => r.stats.steps)).sum + cur.steps⟩) ∧
    (st = .SETUP ∨ st = .IDLE ∨ st = .ALL_COMPLETE →
      totalStats history cur st =
        ⟨(history.map (fun r => r.stats.timeSeconds)).sum,
         (history.map (fun r => r.stats.steps)).sum⟩) := by
  unfold totalStats
  rw [foldl_stats]
  constructor
  · rintro (rfl | rfl) <;> simp
  · rintro (rfl | rfl | rfl) <;> simp

/-- Witness for `totalStats_characterization`, reproducing the spec's
worked example: level 1 finished with 10 s and 5 steps, level 2 in
progress with 3 s and 2 steps, totals 13 s and 7 steps during
`PLAYING`; the in-progress stats are excluded in `SETUP`. -/
theorem totalStats_characterization_witness :
    totalStats [⟨"L1", "Level 1", ⟨10, 5⟩⟩] ⟨3, 2⟩ .PLAYING =
      ⟨([(⟨"L1", "Level 1", ⟨10, 5⟩⟩ : LevelRecord)].map (fun r => r.stats.timeSeconds)).sum + 3,
       ([(⟨"L1", "Level 1", ⟨10, 5⟩⟩ : LevelRecord)].map (fun r => r.stats.steps)).sum + 2⟩ ∧
    totalStats [⟨"L1", "Level 1", ⟨10, 5⟩⟩] ⟨3, 2⟩ .SETUP =
      ⟨([(⟨"L1", "Level 1", ⟨10, 5⟩⟩ : LevelRecord)].map (fun r => r.stats.timeSeconds)).sum,
       ([(⟨"L1", "Level 1", ⟨10, 5⟩⟩ : LevelRecord)].map (fun r => r.stats.steps)).sum⟩ :=
  ⟨(totalStats_characterization [⟨"L1", "Level 1", ⟨10, 5⟩⟩] ⟨3, 2⟩ .PLAYING).1 (Or.inl rfl),
   (totalStats_characterization [⟨"L1", "Level 1", ⟨10, 5⟩⟩] ⟨3, 2⟩ .SETUP).2 (Or.inl rfl)⟩

end App
